import Mathlib

/-!
Verification of the Ad Astra two-phase skin-analysis pipeline.

This development shallowly embeds the core of the Ad Astra repository:

* the chat-history sanitizer and chat persistence of `POST /api/ai/chat`
  (`server/src/index.ts`),
* the strict label-line parser and the prompt builders shared by
  `POST /api/ai/get-skin-conclusion` and `POST /api/ai/analyze-skin`,
* the in-memory analysis-session cache with its 15-minute cleanup timers,
* the client-side offline queue of `services/geminiService.ts`
  (`queueAnalysisRequest` / `processAnalysisQueue`) and the `handleLogout`
  handler that clears the durable localStorage keys.

JavaScript string primitives (`trim`, `split`, `toUpperCase`, `startsWith`,
`substring`, `join`) are embedded as structurally recursive functions over
`String.data` so that every definition evaluates inside the kernel.
-/

/-! ## JavaScript string primitives -/

/-- Embedding of JavaScript `String.prototype.trim()`: drop whitespace from
both ends. -/
def jsTrim (s : String) : String :=
  String.mk (((s.data.dropWhile Char.isWhitespace).reverse.dropWhile
    Char.isWhitespace).reverse)

/-- Worker for `jsSplit`; the fuel is an upper bound on the input length, so
the `0` case is unreachable for the fuel chosen in `jsSplit`. -/
def jsSplitGo (sep : List Char) : Nat → List Char → List Char → List (List Char)
  | _, acc, [] => [acc.reverse]
  | 0, acc, rest => [acc.reverse ++ rest]
  | fuel + 1, acc, c :: cs =>
    if sep.isPrefixOf (c :: cs) then
      acc.reverse :: jsSplitGo sep fuel [] ((c :: cs).drop sep.length)
    else
      jsSplitGo sep fuel (c :: acc) cs

/-- Embedding of JavaScript `s.split(sep)` for a non-empty plain-string
separator. -/
def jsSplit (s sep : String) : List String :=
  (jsSplitGo sep.data s.data.length [] s.data).map String.mk

/-- Embedding of JavaScript `String.prototype.toUpperCase()` (ASCII range,
which is all the code compares). -/
def jsToUpper (s : String) : String :=
  String.mk (s.data.map Char.toUpper)

/-- Embedding of JavaScript `s.startsWith(p)`. -/
def jsStartsWith (s p : String) : Bool :=
  p.data.isPrefixOf s.data

/-- Embedding of JavaScript `s.substring(n)`. -/
def jsDrop (s : String) (n : Nat) : String :=
  String.mk (s.data.drop n)

/-- Embedding of JavaScript `s.length`. -/
def jsLength (s : String) : Nat :=
  s.data.length

/-- Embedding of JavaScript `arr.join(sep)`. -/
def jsJoin (sep : String) : List String → String
  | [] => ""
  | [x] => x
  | x :: rest => x ++ sep ++ jsJoin sep rest

/-! ## Data model: chat history (`ChatSession.history`) -/

/-- The `role` field of a history message (user or model). -/
inductive Role
  | user
  | model
deriving DecidableEq, Repr

/-- One history message `{ role, parts: [{ text }] }`; `parts` is the list of
the `text` fields. -/
structure HistoryMsg where
  role : Role
  parts : List String
deriving DecidableEq, Repr

/-! ## Chat-history sanitizer (`POST /api/ai/chat`, steps 1-5) -/

/-- Step 1 filter predicate:
`h.parts.some(p => p.text && p.text.trim().length > 0)`. -/
def keepMsg (m : HistoryMsg) : Bool :=
  m.parts.any (fun t => !(t == "") && decide (0 < jsLength (jsTrim t)))

/-- Step 3: shift the first message away when the history does not start
with a user message. -/
def shiftLeadingModel : List HistoryMsg → List HistoryMsg
  | [] => []
  | m :: rest => if m.role ≠ Role.user then rest else m :: rest

/-- Step 4 loop: push the first message, then on a same-role collision pop the
previous message and push the current one.  The accumulator is kept reversed. -/
def collapseAux : List HistoryMsg → List HistoryMsg → List HistoryMsg
  | acc, [] => acc.reverse
  | [], c :: rest => collapseAux [c] rest
  | p :: acc, c :: rest =>
    if c.role = p.role then collapseAux (c :: acc) rest
    else collapseAux (c :: p :: acc) rest

/-- Step 4: collapse consecutive same-role runs, keeping the latest message of
each run. -/
def collapseRuns (l : List HistoryMsg) : List HistoryMsg :=
  collapseAux [] l

/-- Step 5: pop the last message when the history ends with a user
message. -/
def dropTrailingUser (l : List HistoryMsg) : List HistoryMsg :=
  match l.getLast? with
  | some m => if m.role = Role.user then l.dropLast else l
  | none => l

/-- The full sanitization pipeline run on the stored history before every
model call. -/
def sanitizeHistory (h : List HistoryMsg) : List HistoryMsg :=
  dropTrailingUser (collapseRuns (shiftLeadingModel (h.filter keepMsg)))

/-- Strict role alternation: adjacent messages have different roles. -/
def Alternates (l : List HistoryMsg) : Prop :=
  l.Chain' (fun a b => a.role ≠ b.role)

/-! ## Chat persistence around the model call (`POST /api/ai/chat`) -/

/-- Outcome of `chat.sendMessage`: either it returns (possibly empty) text, or
it throws. -/
inductive ModelOutcome
  | reply (text : String)
  | threw
deriving DecidableEq, Repr

/-- The stored history after one chat turn: the user turn is pushed and saved
before the model call; on an empty reply it is popped again and the error is
rethrown; on a thrown model error nothing is popped; on a non-empty reply the
model turn is pushed as well. -/
def chatPersist (history : List HistoryMsg) (message : String)
    (outcome : ModelOutcome) : List HistoryMsg :=
  let afterUser := history ++ [⟨Role.user, [message]⟩]
  match outcome with
  | ModelOutcome.threw => afterUser
  | ModelOutcome.reply t =>
    if t == "" then history
    else afterUser ++ [⟨Role.model, [t]⟩]

/-! ## TriageResult and the strict label-line parser -/

/-- The JSON body sent on success by `get-skin-conclusion` and `analyze-skin`:
missing tips become `[]` and a missing doctor suggestion becomes the
empty string. -/
structure TriageResult where
  conclusion : String
  explanation : String
  selfCareTips : List String
  doctorSuggestion : String
deriving DecidableEq, Repr

/-- The mutable `result` object filled in by the `lines.forEach` loop. -/
structure ParsedFields where
  conclusion : Option String
  explanation : Option String
  selfCareTips : Option (List String)
  doctorSuggestion : Option String
deriving DecidableEq, Repr

/-- The empty `result = {}` object. -/
def initParsed : ParsedFields :=
  ⟨none, none, none, none⟩

/-- One iteration of the `lines.forEach(line => ...)` dispatch in
`/api/ai/get-skin-conclusion`. -/
def parseLine (result : ParsedFields) (line : String) : ParsedFields :=
  if jsStartsWith line "CONCLUSION:" then
    let value := jsToUpper (jsTrim (jsDrop line (jsLength "CONCLUSION:")))
    if value == "MILD" || value == "SERIOUS" then
      { result with conclusion := some value }
    else result
  else if jsStartsWith line "EXPLANATION:" then
    { result with explanation := some (jsTrim (jsDrop line (jsLength "EXPLANATION:"))) }
  else if jsStartsWith line "SELF_CARE_TIPS:" then
    let tipsString := jsTrim (jsDrop line (jsLength "SELF_CARE_TIPS:"))
    if !(jsToUpper tipsString == "NONE") && !(tipsString == "") then
      { result with selfCareTips := some (((jsSplit tipsString "* ").map jsTrim).filter (fun tip => !(tip == ""))) }
    else result
  else if jsStartsWith line "DOCTOR_SUGGESTION:" then
    let suggestion := jsTrim (jsDrop line (jsLength "DOCTOR_SUGGESTION:"))
    if !(jsToUpper suggestion == "NONE") && !(suggestion == "") then
      { result with doctorSuggestion := some suggestion }
    else result
  else result

/-- The whole parsing of a model reply in `/api/ai/get-skin-conclusion`:
split the trimmed reply into lines, run the dispatch, fail when `conclusion`
or `explanation` is missing or falsy, and apply the empty-list and
empty-string defaults of the final `res.json`. -/
def parseTriage (responseText : String) : Option TriageResult :=
  let lines := jsSplit (jsTrim responseText) "\n"
  let result := lines.foldl parseLine initParsed
  match result.conclusion, result.explanation with
  | some c, some e =>
    if e == "" then none
    else some { conclusion := c, explanation := e,
                selfCareTips := result.selfCareTips.getD [],
                doctorSuggestion := result.doctorSuggestion.getD "" }
  | _, _ => none

/-- One iteration of the duplicated `lines.forEach` dispatch in
`/api/ai/analyze-skin` (textually identical to the two-phase one). -/
def parseLineCombined (result : ParsedFields) (line : String) : ParsedFields :=
  if jsStartsWith line "CONCLUSION:" then
    let value := jsToUpper (jsTrim (jsDrop line (jsLength "CONCLUSION:")))
    if value == "MILD" || value == "SERIOUS" then
      { result with conclusion := some value }
    else result
  else if jsStartsWith line "EXPLANATION:" then
    { result with explanation := some (jsTrim (jsDrop line (jsLength "EXPLANATION:"))) }
  else if jsStartsWith line "SELF_CARE_TIPS:" then
    let tipsString := jsTrim (jsDrop line (jsLength "SELF_CARE_TIPS:"))
    if !(jsToUpper tipsString == "NONE") && !(tipsString == "") then
      { result with selfCareTips := some (((jsSplit tipsString "* ").map jsTrim).filter (fun tip => !(tip == ""))) }
    else result
  else if jsStartsWith line "DOCTOR_SUGGESTION:" then
    let suggestion := jsTrim (jsDrop line (jsLength "DOCTOR_SUGGESTION:"))
    if !(jsToUpper suggestion == "NONE") && !(suggestion == "") then
      { result with doctorSuggestion := some suggestion }
    else result
  else result

/-- The duplicated parsing block of `/api/ai/analyze-skin`. -/
def parseTriageCombined (responseText : String) : Option TriageResult :=
  let lines := jsSplit (jsTrim responseText) "\n"
  let result := lines.foldl parseLineCombined initParsed
  match result.conclusion, result.explanation with
  | some c, some e =>
    if e == "" then none
    else some { conclusion := c, explanation := e,
                selfCareTips := result.selfCareTips.getD [],
                doctorSuggestion := result.doctorSuggestion.getD "" }
  | _, _ => none

/-! ## Prompt builders of the two endpoints -/

/-- Phase-1 describe prompt of `/api/ai/describe-skin-image`. -/
def describeSkinPrompt : String :=
  "Analyze this image of a skin condition. Describe what you see in objective, clinical terms. Focus on color, texture, shape, and visible features. Do not diagnose or offer advice. Simply describe the visual information."

/-- Internal step-1 describe prompt of `/api/ai/analyze-skin`. -/
def describeSkinPromptCombined : String :=
  "Analyze this image of a skin condition. Describe what you see in objective, clinical terms. Focus on color, texture, shape, and visible features. Do not diagnose or offer advice. Simply describe the visual information."

/-- Rendering of `mcqAnswers` into `additionalInfo` in
`/api/ai/get-skin-conclusion`. -/
def renderAdditionalInfo (mcqAnswers : List (String × String)) : String :=
  if 0 < mcqAnswers.length then
    "The user provided these answers:\n" ++
      jsJoin "\n" (mcqAnswers.map (fun qa => "- " ++ qa.1 ++ ": " ++ qa.2))
  else "The user did not provide any additional context."

/-- Rendering of `mcqAnswers` into `additionalInfo` in `/api/ai/analyze-skin`
(textually identical). -/
def renderAdditionalInfoCombined (mcqAnswers : List (String × String)) : String :=
  if 0 < mcqAnswers.length then
    "The user provided these answers:\n" ++
      jsJoin "\n" (mcqAnswers.map (fun qa => "- " ++ qa.1 ++ ": " ++ qa.2))
  else "The user did not provide any additional context."

/-- Phase-2 conclusion prompt of `/api/ai/get-skin-conclusion`. -/
def analysisPromptTwoPhase (language imageDescription additionalInfo : String) : String :=
  "You are an AI health assistant providing a preliminary analysis. Your response MUST be ONLY four lines in the \x27" ++
  language ++
  "\x27 language, using these exact labels:\nCONCLUSION: [MILD or SERIOUS]\nEXPLANATION: [Your analysis in one paragraph, based on the description and user answers.]\nSELF_CARE_TIPS: [List of 2-3 simple, safe self-care tips, each starting with \x27* \x27. If SERIOUS, write NONE.]\nDOCTOR_SUGGESTION: [The type of specialist to see (e.g., \x27Dermatologist\x27). If MILD, write NONE.]\n\n**Provided Information:**\n1. **Image Description:**\n" ++
  imageDescription ++
  "\n2. **User\x27s Answers:** " ++
  additionalInfo

/-- Internal step-2 conclusion prompt of `/api/ai/analyze-skin`. -/
def analysisPromptCombined (language descriptionText additionalInfo : String) : String :=
  "You are an AI health assistant. Your response MUST be ONLY four lines in the \x27" ++
  language ++
  "\x27 language, using these exact labels:\nCONCLUSION: [MILD or SERIOUS]\nEXPLANATION: [Your analysis in one paragraph.]\nSELF_CARE_TIPS: [List of 2-3 simple tips, each starting with \x27* \x27. If SERIOUS, write NONE.]\nDOCTOR_SUGGESTION: [Specialist to see. If MILD, write NONE.]\n\n**Provided Information:**\n1. **Image Description:**\n" ++
  descriptionText ++
  "\n2. **User\x27s Answers:** " ++
  additionalInfo

/-! ## Analysis-session cache (`analysisCache` with cleanup timers) -/

/-- The fixed 15-minute expiry delay, in milliseconds. -/
def cacheTTLMillis : Nat :=
  15 * 60 * 1000

/-- One `analysisCache` entry: the phase-1 description together with the state
of its `cleanupTimer` (`timerArmed = false` once `clearTimeout` ran) and the
absolute time at which the timer is scheduled to fire. -/
structure CacheEntry where
  description : String
  timerArmed : Bool
  expiresAt : Nat
deriving DecidableEq, Repr

/-- Server state: the current clock and the `analysisCache` map. -/
structure CacheState where
  now : Nat
  entries : String → Option CacheEntry

/-- Outcome of one `get-skin-conclusion` request for a given `analysisId`. -/
inductive ConsumeOutcome
  | miss
  | ok (description : String)
  | failed (description : String)
deriving DecidableEq, Repr

/-- Successful `describe-skin-image`: store the description under a fresh id
and schedule the cleanup timer 15 minutes from now. -/
def doCreate (s : CacheState) (id description : String) : CacheState :=
  { s with entries := fun j =>
      if j = id then some ⟨description, true, s.now + cacheTTLMillis⟩
      else s.entries j }

/-- One `get-skin-conclusion` request: a missing id is a 404 miss; on a hit
`clearTimeout` disarms the cleanup timer immediately, then the entry is
deleted only when the model call and the parse succeed (`modelOk`), and
otherwise stays (with the timer already disarmed). -/
def doConsume (s : CacheState) (id : String) (modelOk : Bool) :
    CacheState × ConsumeOutcome :=
  match s.entries id with
  | none => (s, ConsumeOutcome.miss)
  | some e =>
    if modelOk then
      ({ s with entries := fun j => if j = id then none else s.entries j },
       ConsumeOutcome.ok e.description)
    else
      ({ s with entries := fun j =>
           if j = id then some { e with timerArmed := false } else s.entries j },
       ConsumeOutcome.failed e.description)

/-- Let `d` milliseconds pass: every armed cleanup timer whose deadline has
been reached fires and deletes its entry. -/
def doAdvance (s : CacheState) (d : Nat) : CacheState :=
  { now := s.now + d,
    entries := fun j =>
      match s.entries j with
      | some e =>
        if e.timerArmed && decide (e.expiresAt ≤ s.now + d) then none
        else some e
      | none => none }

/-- Server-side operations relevant to the cache. -/
inductive COp
  | create (id description : String)
  | consume (id : String) (modelOk : Bool)
  | advance (d : Nat)

/-- Apply one operation to the cache state. -/
def cacheApply (s : CacheState) : COp → CacheState
  | COp.create id description => doCreate s id description
  | COp.consume id modelOk => (doConsume s id modelOk).1
  | COp.advance d => doAdvance s d

/-- Run a sequence of operations. -/
def cacheRun : CacheState → List COp → CacheState
  | s, [] => s
  | s, op :: rest => cacheRun (cacheApply s op) rest

/-- Total time elapsed over a sequence of operations. -/
def totalAdvance : List COp → Nat
  | [] => 0
  | COp.advance d :: rest => d + totalAdvance rest
  | _ :: rest => totalAdvance rest

/-- Does this operation create a session under `id`? -/
def isCreateOf (id : String) : COp → Bool
  | COp.create i _ => i == id
  | _ => false

/-- Is this operation a `get-skin-conclusion` attempt on `id`? -/
def isConsumeOf (id : String) : COp → Bool
  | COp.consume i _ => i == id
  | _ => false

/-- Is this operation a successful `get-skin-conclusion` on `id`? -/
def isSuccessConsumeOf (id : String) : COp → Bool
  | COp.consume i modelOk => i == id && modelOk
  | _ => false

/-! ## Client-side offline queue (`geminiService.ts`) -/

/-- The queued payload `{ base64ImageData, mimeType, language, mcqAnswers }`. -/
structure AnalysisPayload where
  base64ImageData : String
  mimeType : String
  language : String
  mcqAnswers : List (String × String)
deriving DecidableEq, Repr

/-- A durable `QueuedAnalysisRequest` entry. -/
structure QueuedRequest where
  id : String
  payload : AnalysisPayload
  timestamp : Nat
deriving DecidableEq, Repr

/-- Embedding of queueAnalysisRequest at clock value `now` (the value of Date.now()): append an
entry whose id is the string `req_` followed by the decimal timestamp. -/
def queueAnalysisRequest (now : Nat) (payload : AnalysisPayload)
    (queue : List QueuedRequest) : List QueuedRequest :=
  queue ++ [{ id := "req_" ++ Nat.repr now, payload := payload, timestamp := now }]

/-- Enqueue a list of `(Date.now(), payload)` submissions in order. -/
def enqueueAll (items : List (Nat × AnalysisPayload))
    (queue : List QueuedRequest) : List QueuedRequest :=
  items.foldl (fun q item => queueAnalysisRequest item.1 item.2 q) queue

/-- The `for (const request of queue)` loop of `processAnalysisQueue`: the
iteration runs over the snapshot taken at entry; `f` is the outcome of the
`/api/ai/analyze-skin` call (`none` = the call threw).  On success the result
is pushed and the entry id filtered out of the live queue; on failure both
are left untouched. -/
def processLoop (f : AnalysisPayload → Option TriageResult) :
    List QueuedRequest → List TriageResult → List QueuedRequest →
    List TriageResult × List QueuedRequest
  | [], results, queue => (results, queue)
  | req :: rest, results, queue =>
    match f req.payload with
    | some result =>
      processLoop f rest (results ++ [result])
        (queue.filter (fun r => !(r.id == req.id)))
    | none => processLoop f rest results queue

/-- One full `processAnalysisQueue` pass over the durable state: an empty
queue returns immediately; otherwise the loop runs and the final results and
queue are written back. -/
def processAnalysisQueue (f : AnalysisPayload → Option TriageResult)
    (queue : List QueuedRequest) (results : List TriageResult) :
    List TriageResult × List QueuedRequest :=
  if queue.isEmpty then (results, queue)
  else processLoop f queue results queue

/-- Durable client storage: the pending queue and the completed results. -/
structure ClientState where
  queue : List QueuedRequest
  results : List TriageResult
deriving DecidableEq, Repr

/-- Client operations touching the durable analysis storage: an offline
submission, a replay pass, and `handleLogout` (which removes the
`analysisQueue` and `analysisResults` keys, so both read back as `[]`). -/
inductive ClientOp
  | enqueue (now : Nat) (payload : AnalysisPayload)
  | replay (f : AnalysisPayload → Option TriageResult)
  | logout

/-- Apply one client operation to the durable storage. -/
def clientApply (s : ClientState) : ClientOp → ClientState
  | ClientOp.enqueue now payload =>
    { s with queue := queueAnalysisRequest now payload s.queue }
  | ClientOp.replay f =>
    let pr := processAnalysisQueue f s.queue s.results
    { queue := pr.2, results := pr.1 }
  | ClientOp.logout => { queue := [], results := [] }

/-! ## Decimal decoding (for id uniqueness of the queue) -/

/-- Numeric value of a decimal digit character. -/
def digitVal (c : Char) : Nat :=
  c.toNat - 48

/-- Decode a decimal string produced by `Nat.repr`. -/
def decodeNat (s : String) : Nat :=
  s.data.foldl (fun acc c => acc * 10 + digitVal c) 0

/-! ## Concrete inputs used by counterexamples and witnesses -/

/-- The mocked model reply of the end-to-end scenario in the specification. -/
def c5Reply : String :=
  "CONCLUSION: MILD\nEXPLANATION: ...\nSELF_CARE_TIPS: * Rest\n* Hydrate\nDOCTOR_SUGGESTION: NONE"

/-- A sample queued payload. -/
def pA : AnalysisPayload :=
  ⟨"A", "image/png", "en", []⟩

/-- A second sample payload, made to fail during replay. -/
def pB : AnalysisPayload :=
  ⟨"B", "image/png", "en", []⟩

/-- A third sample payload. -/
def pC : AnalysisPayload :=
  ⟨"C", "image/png", "en", []⟩

/-- A sample triage result returned by the mocked combined endpoint. -/
def rMild : TriageResult :=
  ⟨"MILD", "ok", [], ""⟩

/-- A mocked combined-endpoint outcome: the call fails exactly on `pB`. -/
def fOracle : AnalysisPayload → Option TriageResult :=
  fun p => if p.base64ImageData == "B" then none else some rMild

/-- The empty server cache at clock 0. -/
def emptyCache : CacheState :=
  ⟨0, fun _ => none⟩

/-! ## Helper lemmas: the chat sanitizer -/

/-- Adjacent-role distinctness is invariant under list reversal. -/
lemma alternates_reverse (l : List HistoryMsg) :
    Alternates l.reverse ↔ Alternates l := by
  unfold Alternates
  rw [List.chain'_reverse]
  constructor
  · intro h; exact h.imp fun a b hab => Ne.symm hab
  · intro h; exact h.imp fun a b hab => Ne.symm hab

/-- The collapse loop always yields an alternating list, given an alternating
(reversed) accumulator. -/
lemma collapseAux_alternates :
    ∀ (l acc : List HistoryMsg), Alternates acc → Alternates (collapseAux acc l) := by
  intro l
  induction l with
  | nil =>
    intro acc h
    simpa only [collapseAux] using (alternates_reverse acc).mpr h
  | cons c rest ih =>
    intro acc h
    match acc with
    | [] =>
      simp only [collapseAux]
      exact ih [c] (List.chain'_singleton c)
    | p :: acc' =>
      simp only [collapseAux]
      by_cases hr : c.role = p.role
      · rw [if_pos hr]
        apply ih
        rcases List.chain'_cons'.mp h with ⟨hhead, htail⟩
        exact List.chain'_cons'.mpr ⟨fun y hy => hr ▸ hhead y hy, htail⟩
      · rw [if_neg hr]
        apply ih
        exact List.chain'_cons.mpr ⟨hr, h⟩

/-- The collapse loop preserves the role of the bottom (oldest) accumulator
element, which becomes the head of the output. -/
lemma collapseAux_head_role :
    ∀ (l acc : List HistoryMsg) (r : Role),
      acc.getLast?.map (fun m => m.role) = some r →
      (collapseAux acc l).head?.map (fun m => m.role) = some r := by
  intro l
  induction l with
  | nil =>
    intro acc r h
    simpa only [collapseAux, List.head?_reverse] using h
  | cons c rest ih =>
    intro acc r h
    match acc with
    | [] => simp at h
    | p :: acc' =>
      simp only [collapseAux]
      by_cases hr : c.role = p.role
      · rw [if_pos hr]
        apply ih
        match acc' with
        | [] =>
          simp only [List.getLast?_singleton, Option.map_some'] at h ⊢
          rw [hr]; exact h
        | a :: t =>
          simpa only [List.getLast?_cons_cons] using h
      · rw [if_neg hr]
        apply ih
        simpa only [List.getLast?_cons_cons] using h

/-- The head of the collapsed list carries the role of the input's head. -/
lemma collapseRuns_head_src (g : List HistoryMsg) (m : HistoryMsg)
    (h : (collapseRuns g).head? = some m) :
    ∃ m₀, g.head? = some m₀ ∧ m.role = m₀.role := by
  match g with
  | [] => simp [collapseRuns, collapseAux] at h
  | c :: rest =>
    have hrw : collapseRuns (c :: rest) = collapseAux [c] rest := rfl
    rw [hrw] at h
    have key := collapseAux_head_role rest [c] c.role (by simp)
    rw [h] at key
    simp only [Option.map_some', Option.some.injEq] at key
    exact ⟨c, rfl, key⟩

/-- Dropping the last element cannot change a surviving head. -/
lemma dropLast_head? (l : List HistoryMsg) (m : HistoryMsg)
    (h : l.dropLast.head? = some m) : l.head? = some m := by
  match l with
  | [] => simp [List.dropLast] at h
  | [a] => simp [List.dropLast] at h
  | a :: b :: t =>
    simp only [List.dropLast_cons₂, List.head?_cons] at h ⊢
    exact h

/-- Step 5 cannot change a surviving head. -/
lemma dropTrailingUser_head? (l : List HistoryMsg) (m : HistoryMsg)
    (h : (dropTrailingUser l).head? = some m) : l.head? = some m := by
  unfold dropTrailingUser at h
  cases hl : l.getLast? with
  | none => rw [hl] at h; exact h
  | some p =>
    rw [hl] at h
    dsimp only at h
    by_cases hr : p.role = Role.user
    · rw [if_pos hr] at h; exact dropLast_head? l m h
    · rw [if_neg hr] at h; exact h

/-- Step 5 preserves alternation. -/
lemma dropTrailingUser_alternates (l : List HistoryMsg) (h : Alternates l) :
    Alternates (dropTrailingUser l) := by
  unfold dropTrailingUser
  cases hl : l.getLast? with
  | none => exact h
  | some p =>
    dsimp only
    by_cases hr : p.role = Role.user
    · rw [if_pos hr]
      have hdecomp : l.dropLast ++ [p] = l := List.dropLast_append_getLast? p hl
      rw [← hdecomp] at h
      exact (List.chain'_append.mp h).1
    · rw [if_neg hr]; exact h

/-- After step 5, a surviving last message has role `model` (for an
alternating input). -/
lemma dropTrailingUser_getLast_role (l : List HistoryMsg) (h : Alternates l)
    (m : HistoryMsg) (hm : (dropTrailingUser l).getLast? = some m) :
    m.role = Role.model := by
  unfold dropTrailingUser at hm
  cases hl : l.getLast? with
  | none =>
    rw [hl] at hm
    rw [List.getLast?_eq_none_iff.mp hl] at hm
    simp at hm
  | some p =>
    rw [hl] at hm
    dsimp only at hm
    by_cases hr : p.role = Role.user
    · rw [if_pos hr] at hm
      have hdecomp : l.dropLast ++ [p] = l := List.dropLast_append_getLast? p hl
      rw [← hdecomp] at h
      have hne : m.role ≠ p.role := (List.chain'_append.mp h).2.2 m hm p rfl
      cases hq : m.role with
      | user => exact absurd (hq.trans hr.symm) hne
      | model => rfl
    · rw [if_neg hr] at hm
      rw [hl] at hm
      injection hm with hm'
      cases hq : m.role with
      | user => exact absurd (hm' ▸ hq) hr
      | model => rfl

/-- If the filtered history does not begin with two `model` messages, the
head surviving step 3 has role `user`. -/
lemma shiftLeadingModel_head_role (f : List HistoryMsg)
    (hstart : (f.map (fun m => m.role)).take 2 ≠ [Role.model, Role.model])
    (m₀ : HistoryMsg) (h : (shiftLeadingModel f).head? = some m₀) :
    m₀.role = Role.user := by
  match f with
  | [] => simp [shiftLeadingModel] at h
  | m₁ :: rest =>
    simp only [shiftLeadingModel] at h
    by_cases hr : m₁.role = Role.user
    · rw [if_neg (fun hne => hne hr)] at h
      simp only [List.head?_cons, Option.some.injEq] at h
      rw [← h]; exact hr
    · rw [if_pos hr] at h
      have h1 : m₁.role = Role.model := by
        cases hq : m₁.role with
        | user => exact absurd hq hr
        | model => rfl
      match rest with
      | [] => simp at h
      | m₂ :: t =>
        simp only [List.head?_cons, Option.some.injEq] at h
        have h2 : m₂.role ≠ Role.model := by
          intro hm2
          exact hstart (by simp [h1, hm2])
        cases hq : m₂.role with
        | user => rw [← h]; exact hq
        | model => exact absurd hq h2

/-! ## C1: the history-alternation invariant of the chat sanitizer -/

/-- C1, counterexample: for the stored history `[model "a", model "b"]` the
sanitization procedure of `POST /api/ai/chat` (which removes only one leading
`model` message) returns `[model "b"]`, a sequence that does not start with
role `user` — so the claimed invariant fails on adversarial histories that
begin with two `model` messages. -/
theorem chat_sanitizer_counterexample :
    (sanitizeHistory [⟨Role.model, ["a"]⟩, ⟨Role.model, ["b"]⟩]).head?.all
      (fun m => m.role == Role.user) = false := by
  decide

/-- C1 (amended): for every stored history whose filtered form does not begin
with two consecutive `model` messages, the sanitization procedure of
`POST /api/ai/chat` yields a sequence that strictly alternates roles, starts
with role `user` (when non-empty), and ends with role `model` (when
non-empty).  Histories whose filtered form starts with two `model` messages
escape the single `shift()` repair and can yield a `model`-headed result. -/
theorem chat_sanitizer_invariant (h : List HistoryMsg)
    (hstart : ((h.filter keepMsg).map (fun m => m.role)).take 2 ≠
      [Role.model, Role.model]) :
    Alternates (sanitizeHistory h) ∧
    (sanitizeHistory h).head?.all (fun m => m.role == Role.user) = true ∧
    (sanitizeHistory h).getLast?.all (fun m => m.role == Role.model) = true := by
  have halt : Alternates (collapseRuns (shiftLeadingModel (h.filter keepMsg))) :=
    collapseAux_alternates _ [] List.chain'_nil
  refine ⟨dropTrailingUser_alternates _ halt, ?_, ?_⟩
  · cases hh : (sanitizeHistory h).head? with
    | none => rfl
    | some m =>
      have hh' : (collapseRuns (shiftLeadingModel (h.filter keepMsg))).head? = some m :=
        dropTrailingUser_head? _ m hh
      obtain ⟨m₀, hg, hrole⟩ := collapseRuns_head_src _ m hh'
      have hu : m₀.role = Role.user := shiftLeadingModel_head_role _ hstart m₀ hg
      simp [Option.all, hrole, hu]
  · cases hl : (sanitizeHistory h).getLast? with
    | none => rfl
    | some m =>
      have hmodel := dropTrailingUser_getLast_role _ halt m hl
      simp [Option.all, hmodel]

/-- C1, witness: the amended invariant applied to the adversarial stored
history `[model "x", user "a", user "b", model "c", user "d"]` (leading model
message, a consecutive same-role run, and a trailing user message). -/
theorem chat_sanitizer_invariant_witness :
    Alternates (sanitizeHistory [⟨Role.model, ["x"]⟩, ⟨Role.user, ["a"]⟩,
      ⟨Role.user, ["b"]⟩, ⟨Role.model, ["c"]⟩, ⟨Role.user, ["d"]⟩]) ∧
    (sanitizeHistory [⟨Role.model, ["x"]⟩, ⟨Role.user, ["a"]⟩, ⟨Role.user, ["b"]⟩,
      ⟨Role.model, ["c"]⟩, ⟨Role.user, ["d"]⟩]).head?.all
        (fun m => m.role == Role.user) = true ∧
    (sanitizeHistory [⟨Role.model, ["x"]⟩, ⟨Role.user, ["a"]⟩, ⟨Role.user, ["b"]⟩,
      ⟨Role.model, ["c"]⟩, ⟨Role.user, ["d"]⟩]).getLast?.all
        (fun m => m.role == Role.model) = true :=
  chat_sanitizer_invariant _ (by decide)

/-! ## C5: parsing of the documented end-to-end model reply -/

/-- C5, counterexample: on the exact mocked reply of the specification's
end-to-end scenario, the parser of `/api/ai/get-skin-conclusion` yields
`selfCareTips = ["Rest"]`, not the claimed `["Rest", "Hydrate"]` — the
continuation line `* Hydrate` matches no label prefix and is dropped. -/
theorem parse_mild_reply_counterexample :
    (parseTriage c5Reply).map (fun r => r.selfCareTips) ≠ some ["Rest", "Hydrate"] := by
  decide

/-- C5 (amended): on the exact mocked reply the returned TriageResult has
conclusion `MILD`, explanation `...`, `selfCareTips = ["Rest"]` (the
`* Hydrate` continuation line is ignored by the per-line prefix parser), and
`doctorSuggestion` equal to the empty string (the response maps an absent
suggestion to the empty string, not to an absent field). -/
theorem parse_mild_reply_exact :
    parseTriage c5Reply = some ⟨"MILD", "...", ["Rest"], ""⟩ := by
  decide

/-! ## C7: the combined endpoint versus the two-phase path -/

/-- C7, counterexample: the phase-2 conclusion prompts of the two paths are
different strings at concrete inputs — `/api/ai/analyze-skin` uses an
abbreviated wording — so the combined endpoint does not use prompts identical
to the two-phase path. -/
theorem combined_prompt_differs_counterexample :
    analysisPromptCombined "English" "desc" "info" ≠
      analysisPromptTwoPhase "English" "desc" "info" := by
  decide

/-- C7 (amended): the combined `/api/ai/analyze-skin` endpoint uses the same
describe prompt, the same `mcqAnswers` rendering, and an identical parser as
the two-phase path — hence for every model reply both paths produce the same
TriageResult — but its phase-2 conclusion prompt differs in wording from the
two-phase `/api/ai/get-skin-conclusion` prompt. -/
theorem combined_parse_equivalent :
    parseTriageCombined = parseTriage ∧
    describeSkinPromptCombined = describeSkinPrompt ∧
    renderAdditionalInfoCombined = renderAdditionalInfo :=
  ⟨rfl, rfl, rfl⟩

/-! ## C6: rollback of the persisted user turn -/

/-- C6, counterexample: starting from an empty stored history, if the model
call throws after the user turn `"hi"` was persisted, the stored history has
length 1, not the pre-turn length 0 — the `/api/ai/chat` handler only rolls
back on an empty reply, not on a thrown model error. -/
theorem chat_rollback_counterexample :
    (chatPersist [] "hi" ModelOutcome.threw).length ≠
      ([] : List HistoryMsg).length := by
  decide

/-- C6 (amended): the persisted user turn is rolled back exactly when the
model returns an empty reply (restoring the previous history); when the model
call throws, the user turn remains persisted (length grows by one); on a
non-empty reply both turns are appended. -/
theorem chat_rollback_empty_reply_only (history : List HistoryMsg)
    (message : String) :
    chatPersist history message (ModelOutcome.reply "") = history ∧
    chatPersist history message ModelOutcome.threw =
      history ++ [⟨Role.user, [message]⟩] ∧
    (∀ t : String, t ≠ "" →
      chatPersist history message (ModelOutcome.reply t) =
        history ++ [⟨Role.user, [message]⟩, ⟨Role.model, [t]⟩]) := by
  refine ⟨rfl, rfl, fun t ht => ?_⟩
  simp only [chatPersist, beq_iff_eq, if_neg ht]
  simp

/-- C6, witness: the amended rollback behaviour at the empty history with
message `"hi"` and reply `"ok"`. -/
theorem chat_rollback_empty_reply_only_witness :
    chatPersist [] "hi" (ModelOutcome.reply "") = [] ∧
    chatPersist [] "hi" ModelOutcome.threw = [⟨Role.user, ["hi"]⟩] ∧
    chatPersist [] "hi" (ModelOutcome.reply "ok") =
      [⟨Role.user, ["hi"]⟩, ⟨Role.model, ["ok"]⟩] :=
  ⟨(chat_rollback_empty_reply_only [] "hi").1,
   (chat_rollback_empty_reply_only [] "hi").2.1,
   (chat_rollback_empty_reply_only [] "hi").2.2 "ok" (by decide)⟩

/-! ## Helper lemmas: the analysis-session cache -/

/-- A `get-skin-conclusion` call on a different id leaves an entry unchanged. -/
lemma doConsume_entries_other (s : CacheState) (i id : String) (b : Bool)
    (hne : ¬ id = i) : ((doConsume s i b).1).entries id = s.entries id := by
  unfold doConsume
  cases he : s.entries i with
  | none => rfl
  | some e => cases b <;> simp [if_neg hne]

/-- A `get-skin-conclusion` call never moves the clock. -/
lemma doConsume_now (s : CacheState) (i : String) (b : Bool) :
    ((doConsume s i b).1).now = s.now := by
  unfold doConsume
  cases he : s.entries i with
  | none => rfl
  | some e => cases b <;> rfl

/-- A lookup of an absent id leaves the state unchanged. -/
lemma doConsume_state_of_none (s : CacheState) (id : String) (b : Bool)
    (h : s.entries id = none) : (doConsume s id b).1 = s := by
  unfold doConsume
  rw [h]

/-- A lookup of an absent id reports a miss. -/
lemma doConsume_miss_of_none (s : CacheState) (id : String) (b : Bool)
    (h : s.entries id = none) : (doConsume s id b).2 = ConsumeOutcome.miss := by
  unfold doConsume
  rw [h]

/-- A lookup of a present id never reports a miss. -/
lemma doConsume_not_miss_of_some (s : CacheState) (id : String) (b : Bool)
    (e : CacheEntry) (h : s.entries id = some e) :
    (doConsume s id b).2 ≠ ConsumeOutcome.miss := by
  unfold doConsume
  rw [h]
  cases b <;> simp

/-- Once an id is absent from the cache it stays absent under any operations
that do not create that id. -/
lemma cache_miss_stable (id : String) :
    ∀ (ops : List COp) (s : CacheState),
      (∀ op ∈ ops, isCreateOf id op = false) →
      s.entries id = none → (cacheRun s ops).entries id = none := by
  intro ops
  induction ops with
  | nil => intro s _ h; exact h
  | cons op rest ih =>
    intro s hops h
    have hop := hops op (List.mem_cons_self op rest)
    have hrest : ∀ o ∈ rest, isCreateOf id o = false :=
      fun o ho => hops o (List.mem_cons_of_mem op ho)
    simp only [cacheRun, cacheApply]
    cases op with
    | create i d =>
      apply ih _ hrest
      simp only [isCreateOf, beq_eq_false_iff_ne, ne_eq] at hop
      simp only [doCreate]
      rw [if_neg fun he : id = i => hop he.symm]
      exact h
    | consume i b =>
      apply ih _ hrest
      by_cases hid : id = i
      · subst hid
        dsimp only
        rw [doConsume_state_of_none s id b h]
        exact h
      · rw [doConsume_entries_other s i id b hid]
        exact h
    | advance d =>
      apply ih _ hrest
      simp only [doAdvance]
      rw [h]

/-- C3: once a `get-skin-conclusion` call on an `analysisId` has completed
successfully (the cached description was returned and the session deleted),
any later `get-skin-conclusion` on the same id is a hard `SessionNotFound`
miss, under any interleaving of operations that does not explicitly create
that id again — the session is never silently recreated. -/
theorem session_single_use (s : CacheState) (id : String) (e : CacheEntry)
    (h : s.entries id = some e) (ops : List COp)
    (hops : ∀ op ∈ ops, isCreateOf id op = false) (b : Bool) :
    (doConsume s id true).2 = ConsumeOutcome.ok e.description ∧
    ((doConsume s id true).1).entries id = none ∧
    (doConsume (cacheRun (doConsume s id true).1 ops) id b).2 =
      ConsumeOutcome.miss := by
  have h2 : ((doConsume s id true).1).entries id = none := by
    simp [doConsume, h]
  have h3 := cache_miss_stable id ops _ hops h2
  exact ⟨by simp [doConsume, h], h2,
    doConsume_miss_of_none (cacheRun (doConsume s id true).1 ops) id b h3⟩

/-- C3, witness: create a session `"a"` at time 0, consume it successfully,
let 15 minutes pass, and observe that a second consume misses. -/
theorem session_single_use_witness :
    (doConsume (doCreate emptyCache "a" "d") "a" true).2 =
      ConsumeOutcome.ok "d" ∧
    ((doConsume (doCreate emptyCache "a" "d") "a" true).1).entries "a" = none ∧
    (doConsume (cacheRun (doConsume (doCreate emptyCache "a" "d") "a" true).1
      [COp.advance cacheTTLMillis]) "a" true).2 = ConsumeOutcome.miss :=
  session_single_use (doCreate emptyCache "a" "d") "a"
    ⟨"d", true, 0 + cacheTTLMillis⟩ (by decide)
    [COp.advance cacheTTLMillis] (by decide) true

/-- An armed entry is deleted by the time its deadline has elapsed, as long
as no operation creates or looks up its id. -/
lemma cache_armed_expiry (id : String) :
    ∀ (ops : List COp) (s : CacheState) (d₀ : String) (E : Nat),
      (∀ op ∈ ops, isCreateOf id op = false ∧ isConsumeOf id op = false) →
      s.entries id = some ⟨d₀, true, E⟩ →
      s.now < E → E ≤ s.now + totalAdvance ops →
      (cacheRun s ops).entries id = none := by
  intro ops
  induction ops with
  | nil =>
    intro s d₀ E _ _ hlt hle
    simp only [totalAdvance] at hle
    omega
  | cons op rest ih =>
    intro s d₀ E hops h hlt hle
    have hop := hops op (List.mem_cons_self op rest)
    have hrest : ∀ o ∈ rest, isCreateOf id o = false ∧ isConsumeOf id o = false :=
      fun o ho => hops o (List.mem_cons_of_mem op ho)
    simp only [cacheRun, cacheApply]
    cases op with
    | create i d =>
      have hne : ¬ id = i := by
        have := hop.1
        simp only [isCreateOf, beq_eq_false_iff_ne, ne_eq] at this
        exact fun he => this he.symm
      apply ih _ d₀ E hrest ?_ ?_ ?_
      · simp only [doCreate]
        rw [if_neg hne]
        exact h
      · exact hlt
      · simpa only [totalAdvance, doCreate] using hle
    | consume i b =>
      have hne : ¬ id = i := by
        have := hop.2
        simp only [isConsumeOf, beq_eq_false_iff_ne, ne_eq] at this
        exact fun he => this he.symm
      apply ih _ d₀ E hrest ?_ ?_ ?_
      · rw [doConsume_entries_other s i id b hne]
        exact h
      · rw [doConsume_now]
        exact hlt
      · rw [doConsume_now]
        simpa only [totalAdvance] using hle
    | advance d =>
      by_cases hE : E ≤ s.now + d
      · have hnone : (doAdvance s d).entries id = none := by
          simp [doAdvance, h, hE]
        exact cache_miss_stable id rest _ (fun o ho => (hrest o ho).1) hnone
      · have hsome : (doAdvance s d).entries id = some ⟨d₀, true, E⟩ := by
          simp [doAdvance, h, hE]
        apply ih _ d₀ E hrest hsome ?_ ?_
        · simp only [doAdvance]
          omega
        · simp only [doAdvance]
          simp only [totalAdvance] at hle
          omega

/-- C4, counterexample: a session is created at time 0, a
`get-skin-conclusion` attempt at time 0 finds it but the model call fails (no
successful consume), and 15 minutes + 1 ms pass; the claimed expiry says any
later lookup must now miss, yet the lookup still finds the session — the
eviction timer was cancelled at lookup time of the failed attempt, not at
successful consumption. -/
theorem session_expiry_counterexample :
    (doConsume (cacheRun emptyCache [COp.create "a" "d", COp.consume "a" false,
      COp.advance (cacheTTLMillis + 1)]) "a" true).2 ≠ ConsumeOutcome.miss := by
  decide

/-- C4 (amended): an `analysisId` whose session is never looked up by any
`get-skin-conclusion` call (successful or failed) becomes a hard miss once 15
minutes have elapsed since creation: the per-entry eviction timer fires at the
fixed 15-minute delay and is cancelled by the first `get-skin-conclusion`
lookup of that id, even one whose model call then fails. -/
theorem session_expiry_when_unconsumed (s : CacheState) (id desc : String)
    (ops : List COp)
    (hops : ∀ op ∈ ops, isCreateOf id op = false ∧ isConsumeOf id op = false)
    (helapsed : cacheTTLMillis ≤ totalAdvance ops) (b : Bool) :
    (doConsume (cacheRun (doCreate s id desc) ops) id b).2 =
      ConsumeOutcome.miss := by
  have hone : (doCreate s id desc).entries id =
      some ⟨desc, true, s.now + cacheTTLMillis⟩ := by
    simp [doCreate]
  have hlt : (doCreate s id desc).now < s.now + cacheTTLMillis := by
    simp only [doCreate]
    have : 0 < cacheTTLMillis := by decide
    omega
  have hle : s.now + cacheTTLMillis ≤ (doCreate s id desc).now + totalAdvance ops := by
    simp only [doCreate]
    omega
  have hnone := cache_armed_expiry id ops _ desc (s.now + cacheTTLMillis)
    hops hone hlt hle
  simp [doConsume, hnone]

/-- C4, witness: the amended expiry applied to a fresh session `"a"` created
at time 0 with exactly 15 minutes passing and no lookup in between. -/
theorem session_expiry_when_unconsumed_witness :
    (doConsume (cacheRun (doCreate emptyCache "a" "d")
      [COp.advance cacheTTLMillis]) "a" true).2 = ConsumeOutcome.miss :=
  session_expiry_when_unconsumed emptyCache "a" "d"
    [COp.advance cacheTTLMillis] (by decide) (by decide) true

/-- A disarmed entry survives every operation that neither successfully
consumes its id nor creates it again. -/
lemma cache_disarmed_stable (id : String) :
    ∀ (ops : List COp) (s : CacheState) (d₀ : String) (E : Nat),
      (∀ op ∈ ops, isCreateOf id op = false ∧ isSuccessConsumeOf id op = false) →
      s.entries id = some ⟨d₀, false, E⟩ →
      (cacheRun s ops).entries id = some ⟨d₀, false, E⟩ := by
  intro ops
  induction ops with
  | nil => intro s d₀ E _ h; exact h
  | cons op rest ih =>
    intro s d₀ E hops h
    have hop := hops op (List.mem_cons_self op rest)
    have hrest : ∀ o ∈ rest, isCreateOf id o = false ∧ isSuccessConsumeOf id o = false :=
      fun o ho => hops o (List.mem_cons_of_mem op ho)
    simp only [cacheRun, cacheApply]
    cases op with
    | create i d =>
      have hne : ¬ id = i := by
        have := hop.1
        simp only [isCreateOf, beq_eq_false_iff_ne, ne_eq] at this
        exact fun he => this he.symm
      apply ih _ d₀ E hrest
      simp only [doCreate]
      rw [if_neg hne]
      exact h
    | consume i b =>
      apply ih _ d₀ E hrest
      by_cases hid : id = i
      · subst hid
        have hb : b = false := by
          have := hop.2
          simp only [isSuccessConsumeOf, beq_self_eq_true, Bool.true_and] at this
          exact this
        subst hb
        simp [doConsume, h]
      · rw [doConsume_entries_other s i id b hid]
        exact h
    | advance d =>
      apply ih _ d₀ E hrest
      simp [doAdvance, h]

/-- C10: a `get-skin-conclusion` call that finds the cached session but then
fails returns the cached description as a failed attempt, leaves the entry in
the cache with its eviction timer disarmed, and the entry then survives any
amount of elapsed time and any operations short of a successful consume (or an
explicit re-create of the id) — so a later call on the same `analysisId`
still finds the session and can retry without restarting phase 1. -/
theorem failed_conclusion_keeps_session (s : CacheState) (id : String)
    (e : CacheEntry) (h : s.entries id = some e) (ops : List COp)
    (hops : ∀ op ∈ ops, isCreateOf id op = false ∧ isSuccessConsumeOf id op = false)
    (b : Bool) :
    (doConsume s id false).2 = ConsumeOutcome.failed e.description ∧
    ((doConsume s id false).1).entries id =
      some ⟨e.description, false, e.expiresAt⟩ ∧
    (cacheRun (doConsume s id false).1 ops).entries id =
      some ⟨e.description, false, e.expiresAt⟩ ∧
    (doConsume (cacheRun (doConsume s id false).1 ops) id b).2 ≠
      ConsumeOutcome.miss := by
  have h2 : ((doConsume s id false).1).entries id =
      some ⟨e.description, false, e.expiresAt⟩ := by
    simp [doConsume, h]
  have h3 := cache_disarmed_stable id ops _ e.description e.expiresAt hops h2
  exact ⟨by simp [doConsume, h], h2, h3,
    doConsume_not_miss_of_some (cacheRun (doConsume s id false).1 ops) id b
      ⟨e.description, false, e.expiresAt⟩ h3⟩

/-- C10, witness: a failed attempt on session `"a"` at time 0, followed by 30
minutes of elapsed time and a failed attempt on another id, after which the
session is still present and a retry still finds it. -/
theorem failed_conclusion_keeps_session_witness :
    (doConsume (doCreate emptyCache "a" "d") "a" false).2 =
      ConsumeOutcome.failed "d" ∧
    ((doConsume (doCreate emptyCache "a" "d") "a" false).1).entries "a" =
      some ⟨"d", false, 0 + cacheTTLMillis⟩ ∧
    (cacheRun (doConsume (doCreate emptyCache "a" "d") "a" false).1
      [COp.advance (cacheTTLMillis + cacheTTLMillis),
       COp.consume "b" false]).entries "a" =
      some ⟨"d", false, 0 + cacheTTLMillis⟩ ∧
    (doConsume (cacheRun (doConsume (doCreate emptyCache "a" "d") "a" false).1
      [COp.advance (cacheTTLMillis + cacheTTLMillis),
       COp.consume "b" false]) "a" true).2 ≠ ConsumeOutcome.miss :=
  failed_conclusion_keeps_session (doCreate emptyCache "a" "d") "a"
    ⟨"d", true, 0 + cacheTTLMillis⟩ (by decide)
    [COp.advance (cacheTTLMillis + cacheTTLMillis), COp.consume "b" false]
    (by decide) true

/-! ## Helper lemmas: the offline queue replay -/

/-- Full characterization of the replay loop: it attempts every snapshot
entry in order, appends the successful results in that order, and filters out
of the live queue exactly the entries sharing an id with some successful
snapshot entry. -/
lemma processLoop_spec (f : AnalysisPayload → Option TriageResult) :
    ∀ (snap : List QueuedRequest) (results : List TriageResult)
      (queue : List QueuedRequest),
      processLoop f snap results queue =
        (results ++ snap.filterMap (fun r => f r.payload),
         queue.filter (fun r =>
           !(snap.any (fun s => r.id == s.id && (f s.payload).isSome)))) := by
  intro snap
  induction snap with
  | nil =>
    intro results queue
    simp [processLoop]
  | cons req rest ih =>
    intro results queue
    cases hf : f req.payload with
    | some result =>
      simp only [processLoop, hf, List.filterMap_cons]
      rw [ih]
      simp only [Prod.mk.injEq]
      constructor
      · simp
      · rw [List.filter_filter]
        apply List.filter_congr
        intro r _
        simp only [List.any_cons, hf, Option.isSome_some, Bool.and_true,
          Bool.not_or]
        rw [Bool.and_comm]
    | none =>
      simp only [processLoop, hf, List.filterMap_cons]
      rw [ih]
      simp only [Prod.mk.injEq]
      constructor
      · trivial
      · apply List.filter_congr
        intro r _
        simp [List.any_cons, hf]

/-- One `processAnalysisQueue` pass over a queue with pairwise-distinct ids:
the durable results gain exactly the successful outcomes in queue order, and
the durable queue keeps exactly the failed entries in order. -/
lemma processQueue_spec (f : AnalysisPayload → Option TriageResult)
    (queue : List QueuedRequest) (results : List TriageResult)
    (hids : (queue.map (fun r => r.id)).Nodup) :
    (processAnalysisQueue f queue results).1 =
      results ++ queue.filterMap (fun r => f r.payload) ∧
    (processAnalysisQueue f queue results).2 =
      queue.filter (fun r => (f r.payload).isNone) := by
  unfold processAnalysisQueue
  by_cases hq : queue.isEmpty
  · rw [if_pos hq]
    rw [List.isEmpty_iff.mp hq]
    simp
  · rw [if_neg hq]
    rw [processLoop_spec]
    refine ⟨rfl, ?_⟩
    apply List.filter_congr
    intro r hr
    by_cases hfr : (f r.payload).isSome
    · have hany : queue.any (fun s => r.id == s.id && (f s.payload).isSome) = true :=
        List.any_eq_true.mpr ⟨r, hr, by simp [hfr]⟩
      rw [hany]
      simp only [Bool.not_true]
      cases hv : f r.payload with
      | some v => simp
      | none => rw [hv] at hfr; simp at hfr
    · have hany : queue.any (fun s => r.id == s.id && (f s.payload).isSome) = false := by
        rw [List.any_eq_false]
        intro s hs
        by_cases hid : r.id = s.id
        · have hsr : s = r :=
            List.inj_on_of_nodup_map hids hs hr hid.symm
          rw [hsr]
          simp only [Bool.and_eq_true, beq_iff_eq, not_and]
          intro _
          exact hfr
        · simp [hid]
      rw [hany]
      simp only [Bool.not_false]
      cases hv : f r.payload with
      | some v => rw [hv] at hfr; simp at hfr
      | none => simp

/-! ## C2: FIFO replay with per-entry failure isolation -/

/-- C2, counterexample: with entries `A`, `B`, `C` enqueued in that order
while offline — `A` and `B` within the same millisecond (so they share the id
`req_5`) — and a replay in which `A` and `C` succeed while `B` fails, `B` is
nonetheless absent from the final queue: removing `A` by id also removed the
failed `B`, contradicting the claim that a failed entry remains queued. -/
theorem replay_fifo_counterexample :
    fOracle pB = none ∧
    (⟨"req_5", pB, 5⟩ : QueuedRequest) ∈
      queueAnalysisRequest 6 pC (queueAnalysisRequest 5 pB
        (queueAnalysisRequest 5 pA [])) ∧
    (⟨"req_5", pB, 5⟩ : QueuedRequest) ∉
      (processAnalysisQueue fOracle
        (queueAnalysisRequest 6 pC (queueAnalysisRequest 5 pB
          (queueAnalysisRequest 5 pA []))) []).2 := by
  decide

/-- C2 (amended): for a queue whose entries carry pairwise-distinct ids
(which holds whenever their enqueues landed at distinct millisecond
timestamps), one `processAnalysisQueue` run attempts the combined call for
every entry in FIFO order: the durable result store gains exactly the
successful results in queue order, and the durable queue retains exactly the
entries whose call failed, in order — one failure never blocks the rest. -/
theorem replay_fifo (f : AnalysisPayload → Option TriageResult)
    (queue : List QueuedRequest) (results : List TriageResult)
    (hids : (queue.map (fun r => r.id)).Nodup) :
    (processAnalysisQueue f queue results).1 =
      results ++ queue.filterMap (fun r => f r.payload) ∧
    (processAnalysisQueue f queue results).2 =
      queue.filter (fun r => (f r.payload).isNone) :=
  processQueue_spec f queue results hids

/-- C2, witness: entries `A`, `B`, `C` enqueued at milliseconds 1, 2, 3; `B`
fails during replay; `A` and `C` succeed and leave the queue, `B` remains. -/
theorem replay_fifo_witness :
    (processAnalysisQueue fOracle
      (queueAnalysisRequest 3 pC (queueAnalysisRequest 2 pB
        (queueAnalysisRequest 1 pA []))) []).1 =
      [] ++ (queueAnalysisRequest 3 pC (queueAnalysisRequest 2 pB
        (queueAnalysisRequest 1 pA []))).filterMap (fun r => fOracle r.payload) ∧
    (processAnalysisQueue fOracle
      (queueAnalysisRequest 3 pC (queueAnalysisRequest 2 pB
        (queueAnalysisRequest 1 pA []))) []).2 =
      (queueAnalysisRequest 3 pC (queueAnalysisRequest 2 pB
        (queueAnalysisRequest 1 pA []))).filter
          (fun r => (fOracle r.payload).isNone) :=
  replay_fifo fOracle _ [] (by decide)

/-! ## C9: queue entries are removed only by a successful replay -/

/-- C9, counterexample: enqueue one pending request and then log out: the
durable queue becomes empty although no combined-call replay (let alone a
successful one) ever ran — `handleLogout` removes the `analysisQueue` key
unconditionally, so a client operation other than successful replay does
remove pending entries. -/
theorem logout_clears_queue_counterexample :
    (clientApply (clientApply ⟨[], []⟩ (ClientOp.enqueue 1 pA))
      ClientOp.logout).queue = [] ∧
    (clientApply ⟨[], []⟩ (ClientOp.enqueue 1 pA)).queue ≠ [] := by
  decide

/-- C9 (amended): during a replay pass over a queue with pairwise-distinct
ids, an entry whose combined call fails is still in the durable queue
afterwards, and an entry that left the queue had a successful call — but this
removal discipline holds only for replay: `handleLogout` clears the whole
durable queue and result store unconditionally. -/
theorem replay_removes_only_successes (f : AnalysisPayload → Option TriageResult)
    (s : ClientState) (hids : (s.queue.map (fun r => r.id)).Nodup) :
    (∀ r ∈ s.queue, f r.payload = none →
      r ∈ (clientApply s (ClientOp.replay f)).queue) ∧
    (∀ r ∈ s.queue, r ∉ (clientApply s (ClientOp.replay f)).queue →
      (f r.payload).isSome = true) := by
  have hspec := (processQueue_spec f s.queue s.results hids).2
  constructor
  · intro r hr hfail
    show r ∈ (processAnalysisQueue f s.queue s.results).2
    rw [hspec]
    exact List.mem_filter.mpr ⟨hr, by simp [hfail]⟩
  · intro r hr hout
    by_cases hfr : (f r.payload).isSome
    · exact hfr
    · exfalso
      apply hout
      show r ∈ (processAnalysisQueue f s.queue s.results).2
      rw [hspec]
      refine List.mem_filter.mpr ⟨hr, ?_⟩
      cases hv : f r.payload with
      | some v => rw [hv] at hfr; simp at hfr
      | none => simp

/-- C9, witness: the amended removal discipline on the three-entry queue with
distinct ids where only `B` fails. -/
theorem replay_removes_only_successes_witness :
    (∀ r ∈ (⟨queueAnalysisRequest 3 pC (queueAnalysisRequest 2 pB
        (queueAnalysisRequest 1 pA [])), []⟩ : ClientState).queue,
      fOracle r.payload = none →
      r ∈ (clientApply (⟨queueAnalysisRequest 3 pC (queueAnalysisRequest 2 pB
        (queueAnalysisRequest 1 pA [])), []⟩ : ClientState)
          (ClientOp.replay fOracle)).queue) ∧
    (∀ r ∈ (⟨queueAnalysisRequest 3 pC (queueAnalysisRequest 2 pB
        (queueAnalysisRequest 1 pA [])), []⟩ : ClientState).queue,
      r ∉ (clientApply (⟨queueAnalysisRequest 3 pC (queueAnalysisRequest 2 pB
        (queueAnalysisRequest 1 pA [])), []⟩ : ClientState)
          (ClientOp.replay fOracle)).queue →
      (fOracle r.payload).isSome = true) :=
  replay_removes_only_successes fOracle _ (by decide)

/-! ## Helper lemmas: decimal ids of queued requests -/

/-- Decoding inverts `Nat.digitChar` on single digits. -/
lemma digitVal_digitChar (d : Nat) (h : d < 10) :
    digitVal (Nat.digitChar d) = d := by
  interval_cases d <;> rfl

/-- Decoding the digits emitted by `Nat.toDigitsCore` (base 10) continues a
fold that has already absorbed `n`. -/
lemma decode_toDigitsCore :
    ∀ (f n : Nat) (cs : List Char), n < 10 ^ f →
      List.foldl (fun acc c => acc * 10 + digitVal c) 0
        (Nat.toDigitsCore 10 f n cs) =
      List.foldl (fun acc c => acc * 10 + digitVal c) n cs := by
  intro f
  induction f with
  | zero =>
    intro n cs h
    interval_cases n
    rfl
  | succ f ih =>
    intro n cs h
    rw [Nat.toDigitsCore]
    by_cases hdiv : n / 10 = 0
    · rw [if_pos hdiv]
      simp only [List.foldl_cons]
      rw [digitVal_digitChar (n % 10) (by omega)]
      congr 1
      omega
    · rw [if_neg hdiv]
      have h' : n / 10 < 10 ^ f := by
        rw [pow_succ] at h
        exact Nat.div_lt_of_lt_mul (by omega)
      rw [ih (n / 10) (Nat.digitChar (n % 10) :: cs) h']
      simp only [List.foldl_cons]
      rw [digitVal_digitChar (n % 10) (by omega)]
      congr 1
      omega

/-- Decoding inverts `Nat.repr`. -/
lemma decodeNat_repr (n : Nat) : decodeNat (Nat.repr n) = n := by
  have hb : n < 10 ^ (n + 1) := by
    calc n < 2 ^ n := Nat.lt_two_pow n
    _ ≤ 10 ^ n := Nat.pow_le_pow_left (by norm_num) n
    _ < 10 ^ (n + 1) := Nat.pow_lt_pow_succ (by norm_num)
  have := decode_toDigitsCore (n + 1) n [] hb
  simpa [decodeNat, Nat.repr, Nat.toDigits] using this

/-- Decimal representations of distinct naturals are distinct. -/
lemma natRepr_injective : Function.Injective Nat.repr := by
  intro a b h
  have ha := decodeNat_repr a
  rw [h, decodeNat_repr b] at ha
  exact ha.symm

/-- The generated `req_<timestamp>` ids are injective in the timestamp. -/
lemma reqId_injective :
    Function.Injective (fun t : Nat => "req_" ++ Nat.repr t) := by
  intro a b h
  apply natRepr_injective
  have hd := congrArg String.data h
  simp only [String.data_append] at hd
  exact String.ext (List.append_cancel_left hd)

/-- The ids of a batch of enqueues, starting from any queue. -/
lemma enqueueAll_map_id :
    ∀ (items : List (Nat × AnalysisPayload)) (q : List QueuedRequest),
      (enqueueAll items q).map (fun r => r.id) =
        q.map (fun r => r.id) ++
          items.map (fun it => "req_" ++ Nat.repr it.1) := by
  intro items
  induction items with
  | nil =>
    intro q
    simp [enqueueAll]
  | cons it rest ih =>
    intro q
    have hstep : enqueueAll (it :: rest) q =
        enqueueAll rest (queueAnalysisRequest it.1 it.2 q) := rfl
    rw [hstep, ih]
    simp [queueAnalysisRequest]

/-! ## C8: uniqueness of queue entry ids -/

/-- C8, counterexample: two submissions enqueued within the same millisecond
(`Date.now() = 5`) are distinct queue entries that share the id `req_5` — the
`req_${Date.now()}` scheme does not produce unique ids for same-millisecond
enqueues. -/
theorem queue_id_collision_counterexample :
    queueAnalysisRequest 5 pB (queueAnalysisRequest 5 pA []) =
      [⟨"req_5", pA, 5⟩, ⟨"req_5", pB, 5⟩] ∧
    (⟨"req_5", pA, 5⟩ : QueuedRequest) ≠ ⟨"req_5", pB, 5⟩ ∧
    ¬ ((queueAnalysisRequest 5 pB (queueAnalysisRequest 5 pA [])).map
        (fun r => r.id)).Nodup := by
  decide

/-- C8 (amended): a sequence of enqueues whose `Date.now()` timestamps are
pairwise distinct yields queue entries with pairwise-distinct ids; entries
enqueued within the same millisecond share an id instead. -/
theorem queue_ids_unique (items : List (Nat × AnalysisPayload))
    (htimes : (items.map (fun it => it.1)).Nodup) :
    ((enqueueAll items []).map (fun r => r.id)).Nodup := by
  rw [enqueueAll_map_id items []]
  simp only [List.map_nil, List.nil_append]
  have hcomp : items.map (fun it => "req_" ++ Nat.repr it.1) =
      (items.map (fun it => it.1)).map (fun t => "req_" ++ Nat.repr t) := by
    rw [List.map_map]
    rfl
  rw [hcomp]
  exact htimes.map reqId_injective

/-- C8, witness: two enqueues at distinct milliseconds 1 and 2 produce
entries with distinct ids. -/
theorem queue_ids_unique_witness :
    ((enqueueAll [(1, pA), (2, pB)] []).map (fun r => r.id)).Nodup :=
  queue_ids_unique [(1, pA), (2, pB)] (by decide)
